import Mathlib

/-!
Verification development for the browser chat application (src/peer.js,
src/crypto.js, src/storage.js, src/util.js, src/ui.js).

The protocol state machine of `src/peer.js` is embedded shallowly: the
module-level mutable state (`connMap`, `my`, `roomId`, `isCreator`,
`roomKey`) becomes an explicit `PeerState` record, the event handlers
become pure functions `PeerState → ... → PeerState × List Effect`, and
the side effects (`conn.send`, `peer.connect`, observer callbacks,
`console.warn`/`console.error` diagnostics) become an explicit `Effect`
trace.  WebCrypto AES-GCM and ECDH are modelled symbolically but
executably: a ciphertext records the key and nonce it was produced
under, and decryption succeeds exactly when both match (the
authenticated-encryption contract of `ChatCrypto.decryptAESGCM`).
Asynchronous handler failures (a rejected promise escaping an `async`
event handler) leave the state as mutated so far and abort the rest of
the handler, which is modelled by returning early with a `warnE` trace
entry.
-/

namespace ChatApp

/-- Peer identities are opaque strings (`my.peerId`, `conn.peer`). -/
abbrev PeerId := String

/-- Exported public ECDH keys (`my.pubB64`), modelled as numbers standing
for the transported base64 bytes. -/
abbrev PubKey := Nat

/-- Private ECDH keys (`my.ecdhPair.privateKey`). -/
abbrev PrivKey := Nat

/-- Symmetric AES-GCM keys (the room key and derived pairwise keys). -/
abbrev SymKey := Nat

/-- The plaintexts the application encrypts: the base64 export of an AES
key (`exportAESKeyToBase64`), the JSON serialization of a chat object
(`sendPlain`), or the JSON serialization of a message log
(`ChatStorage.save`).  Chat objects and logs are kept abstract as the
strings `JSON.stringify` produces. -/
inductive PlainData where
  | keyD (k : SymKey)
  | objD (o : String)
  | logD (l : List String)
deriving DecidableEq, Repr

/-- An AES-GCM ciphertext.  It symbolically records the key and nonce it
was produced under together with the plaintext; `decryptAESGCM` below
recovers the plaintext exactly when key and nonce match, modelling the
authentication guarantee of the mode. -/
structure Ciphertext where
  keyTag : SymKey
  ivTag : Nat
  pt : PlainData
deriving DecidableEq, Repr

/-- The `{iv, ciphertext}` pair returned by `ChatCrypto.encryptAESGCM`. -/
structure EncBlob where
  iv : Nat
  ciphertext : Ciphertext
deriving DecidableEq, Repr

/-- `ChatCrypto.encryptAESGCM(key, plaintext)` with the freshly drawn
random 96-bit nonce made an explicit argument. -/
def encryptAESGCM (key : SymKey) (pt : PlainData) (iv : Nat) : EncBlob :=
  { iv := iv, ciphertext := { keyTag := key, ivTag := iv, pt := pt } }

/-- `ChatCrypto.decryptAESGCM(key, iv_b64, ct_b64)`: succeeds exactly
when the ciphertext was produced under the same key and nonce. -/
def decryptAESGCM (key : SymKey) (iv : Nat) (ct : Ciphertext) : Option PlainData :=
  if ct.keyTag = key ∧ ct.ivTag = iv then some ct.pt else none

/-- `ChatCrypto.deriveSharedAESKey(privateKey, remotePublicKey)`: the
ECDH derivation is kept abstract as a total injective pairing of the two
inputs; none of the verified claims uses its Diffie-Hellman algebra. -/
def deriveSharedAESKey (priv : PrivKey) (pub : PubKey) : SymKey :=
  priv * 4294967296 + pub

/-- `ChatCrypto.exportAESKeyToBase64` (lossless transport encoding). -/
def exportAESKeyToBase64 (k : SymKey) : PlainData := .keyD k

/-- `ChatCrypto.importAESKeyFromBase64`; fails (the JS promise rejects)
on bytes that are not an exported AES key. -/
def importAESKeyFromBase64 : PlainData → Option SymKey
  | .keyD k => some k
  | _ => none

/-- Wire-message payloads, one variant per shape used in `peer.js`:
the bare base64 public key of a `publicKey` message, the `{pubKey}`
object of an `announce`, the `{iv, ciphertext}` of `roomKey` and `msg`,
the identity list of `peerList`, and the `{peerId}` of `newPeer`. -/
inductive Payload where
  | pubB64 (k : PubKey)
  | withPubKey (pubKey : PubKey)
  | encBlob (e : EncBlob)
  | idList (l : List PeerId)
  | withPeerId (peerId : PeerId)
  | emptyP
deriving DecidableEq, Repr

/-- A parsed wire record `{type, from, ts?, payload, username?}`
(`from` is a Lean keyword, hence `fromId`). -/
structure Msg where
  type : String
  fromId : PeerId
  ts : Option Nat
  payload : Payload
  username : Option String
deriving DecidableEq, Repr

/-- Actions registered with `conn.on('open', ...)`.  The `peerList`
payload is computed when the handler fires (the JS closure reads
`connMap` live), so it is kept symbolic here and interpreted at fire
time. -/
inductive OnOpenAct where
  | sendPublicKey
  | sendRoomKey (e : EncBlob)
  | sendPeerList
  | sendAnnounce
deriving DecidableEq, Repr

/-- A `DataConnection` as `peer.js` uses it: the remote identity
(`conn.peer`), the open flag (`conn.open`), the fields the protocol
attaches (`conn._theirPub`, `conn._theirName`), and the queue of
registered open handlers that have not fired yet. -/
structure Conn where
  connId : Nat
  peerId : PeerId
  isOpen : Bool
  theirPub : Option PubKey
  theirName : Option String
  onOpenActs : List OnOpenAct
deriving DecidableEq, Repr

/-- The module-level mutable state of `src/peer.js`.  `connMap` is the
insertion-ordered `Map` from peer identity to connection; `nextConnId`
numbers freshly created connection objects. -/
structure PeerState where
  connMap : List (PeerId × Conn)
  nextConnId : Nat
  myPeerId : PeerId
  myPriv : PrivKey
  myPub : PubKey
  myUsername : String
  roomId : PeerId
  isCreator : Bool
  roomKey : Option SymKey
deriving DecidableEq, Repr

/-- Environment supplied by the runtime at each event: the random nonce
drawn by `crypto.getRandomValues` inside `encryptAESGCM`, the current
`Date.now()`, and the key `generateAESKey` would return. -/
structure Env where
  iv : Nat
  now : Nat
  freshKey : SymKey
deriving DecidableEq, Repr

/-- Observable side effects of a handler, in program order: initiating
`peer.connect`, `conn.send` (addressed by the remote identity the
connection is keyed under), the participant-change callback, the message
observer callback, and a `console.warn`/`console.error` diagnostic. -/
inductive Effect where
  | connectE (theirId : PeerId)
  | sendE (connKey : PeerId) (m : Msg)
  | participantsE (ids : List PeerId)
  | messageE (fromId : PeerId) (ts : Nat) (payload : String)
  | warnE (s : String)
deriving DecidableEq, Repr

/-! ### Insertion-ordered map operations (JS `Map` on `connMap`) -/

/-- `connMap.get(k)`. -/
def mapLookup : List (PeerId × Conn) → PeerId → Option Conn
  | [], _ => none
  | p :: rest, k => if p.1 = k then some p.2 else mapLookup rest k

/-- `connMap.set(k, v)`: overwrites in place, appends when absent
(JS `Map` insertion-order semantics). -/
def mapSet : List (PeerId × Conn) → PeerId → Conn → List (PeerId × Conn)
  | [], k, v => [(k, v)]
  | p :: rest, k, v =>
    if p.1 = k then (k, v) :: rest else p :: mapSet rest k v

/-- `connMap.delete(k)`. -/
def mapDelete : List (PeerId × Conn) → PeerId → List (PeerId × Conn)
  | [], _ => []
  | p :: rest, k => if p.1 = k then rest else p :: mapDelete rest k

/-- Mutating a field of the connection object stored under `k` (the JS
handlers mutate the shared `conn` object in place). -/
def mapUpdate (m : List (PeerId × Conn)) (k : PeerId) (f : Conn → Conn) :
    List (PeerId × Conn) :=
  m.map (fun p => if p.1 = k then (p.1, f p.2) else p)

/-- `Array.from(connMap.keys())`. -/
def mapKeys (m : List (PeerId × Conn)) : List PeerId := m.map Prod.fst

/-! ### Message constructors used by `peer.js` -/

/-- The `publicKey` record sent on every connection open. -/
def publicKeyMsg (s : PeerState) : Msg :=
  { type := "publicKey", fromId := s.myPeerId, ts := none,
    payload := .pubB64 s.myPub, username := some s.myUsername }

/-- The `announce` record a joiner sends to the creator. -/
def announceMsg (s : PeerState) : Msg :=
  { type := "announce", fromId := s.myPeerId, ts := none,
    payload := .withPubKey s.myPub, username := none }

/-- The `roomKey` record delivering the pairwise-encrypted room key. -/
def roomKeyMsg (s : PeerState) (e : EncBlob) : Msg :=
  { type := "roomKey", fromId := s.myPeerId, ts := none,
    payload := .encBlob e, username := none }

/-- The `peerList` record (payload computed from the live `connMap`). -/
def peerListMsg (s : PeerState) : Msg :=
  { type := "peerList", fromId := s.myPeerId, ts := none,
    payload := .idList (mapKeys s.connMap ++ [s.myPeerId]), username := none }

/-- The `newPeer` record the creator broadcasts for a newcomer. -/
def newPeerMsg (s : PeerState) (newId : PeerId) : Msg :=
  { type := "newPeer", fromId := s.myPeerId, ts := none,
    payload := .withPeerId newId, username := none }

/-- The `msg` chat envelope produced by `sendPlain`. -/
def chatEnvelopeMsg (s : PeerState) (now : Nat) (e : EncBlob) : Msg :=
  { type := "msg", fromId := s.myPeerId, ts := some now,
    payload := .encBlob e, username := none }

/-- `notifyParticipants()`: the participant-change callback carries the
current registry keys plus self. -/
def notifyParticipants (s : PeerState) : List Effect :=
  [.participantsE (mapKeys s.connMap ++ [s.myPeerId])]

/-- `connectToPeer(theirId)`: a no-op returning the stored connection
when the identity is already present; otherwise creates a fresh (not yet
open) connection whose open handler will send our `publicKey` record,
registers it in `connMap`, and notifies participants. -/
def connectToPeer (s : PeerState) (theirId : PeerId) :
    PeerState × Conn × List Effect :=
  match mapLookup s.connMap theirId with
  | some c => (s, c, [])
  | none =>
    let c : Conn :=
      { connId := s.nextConnId, peerId := theirId, isOpen := false,
        theirPub := none, theirName := none, onOpenActs := [.sendPublicKey] }
    let s' : PeerState :=
      { s with connMap := s.connMap ++ [(theirId, c)],
               nextConnId := s.nextConnId + 1 }
    (s', c, [.connectE theirId] ++ notifyParticipants s')

/-- The body of the `peerList` loop of `handleProtocolMessage`: connect
to every listed identity that is neither self nor already connected,
accumulating the effects. -/
def peerListStep (acc : PeerState × List Effect) (pid : PeerId) :
    PeerState × List Effect :=
  if pid = acc.1.myPeerId ∨ (mapLookup acc.1.connMap pid).isSome then acc
  else
    let r := connectToPeer acc.1 pid
    (r.1, acc.2 ++ r.2.2)

/-- `handleProtocolMessage(conn, msg)` of `src/peer.js`, lines 149–257.
`connKey` is the identity the connection the data arrived on is keyed
under in `connMap` (both handler-attachment sites key a connection by
its remote identity before data can arrive on it).  A payload whose
shape does not fit the accessed fields makes the corresponding crypto
call reject inside the `async` handler; that abort is modelled by
returning the state unchanged. -/
def handleProtocolMessage (env : Env) (s : PeerState) (connKey : PeerId)
    (m : Msg) : PeerState × List Effect :=
  if m.type = "publicKey" then
    -- store their public key (and display name) on the connection, unconditionally
    match m.payload with
    | .pubB64 k =>
      ({ s with connMap := mapUpdate s.connMap connKey (fun c =>
          { c with theirPub := some k,
                   theirName := some (m.username.getD m.fromId) }) }, [])
    | _ => (s, [])
  else if m.type = "announce" then
    if s.isCreator = false then (s, [])
    else
      match m.payload with
      | .withPubKey theirPub =>
        let theirId := m.fromId
        -- ensure we have a connection object to that peer
        let ensured : PeerState × List Effect :=
          match mapLookup s.connMap theirId with
          | some _ => (s, [])
          | none =>
            let r := connectToPeer s theirId
            -- connToNew._theirPub = theirPub (fresh connection only)
            ({ r.1 with connMap := mapUpdate r.1.connMap theirId
                          (fun c => { c with theirPub := some theirPub }) },
             r.2.2)
        let s1 := ensured.1
        -- exportAESKeyToBase64(roomKey) rejects when roomKey is null
        match s1.roomKey with
        | none => (s1, ensured.2 ++ [.warnE "announce: roomKey export failed"])
        | some rk =>
          let derived := deriveSharedAESKey s.myPriv theirPub
          let enc := encryptAESGCM derived (exportAESKeyToBase64 rk) env.iv
          -- connToNew.on('open', send roomKey then peerList)
          let s2 : PeerState :=
            { s1 with connMap := mapUpdate s1.connMap theirId (fun c =>
                { c with onOpenActs :=
                    c.onOpenActs ++ [.sendRoomKey enc, .sendPeerList] }) }
          -- broadcast newPeer to every other open connection
          let broadcasts :=
            (s2.connMap.filter
                (fun p => !decide (p.1 = theirId) && p.2.isOpen)).map
              (fun p => Effect.sendE p.1 (newPeerMsg s2 theirId))
          (s2, ensured.2 ++ broadcasts)
      | _ => (s, [])
  else if m.type = "roomKey" then
    match m.payload with
    | .encBlob e =>
      -- try { derive with conn._theirPub; decrypt; import } catch { log }
      match (mapLookup s.connMap connKey).bind (fun c => c.theirPub) with
      | none => (s, [.warnE "Failed roomKey handling"])
      | some theirPub =>
        let shared := deriveSharedAESKey s.myPriv theirPub
        match decryptAESGCM shared e.iv e.ciphertext with
        | none => (s, [.warnE "Failed roomKey handling"])
        | some pd =>
          match importAESKeyFromBase64 pd with
          | none => (s, [.warnE "Failed roomKey handling"])
          | some k => ({ s with roomKey := some k }, [])
    | _ => (s, [.warnE "Failed roomKey handling"])
  else if m.type = "peerList" then
    match m.payload with
    | .idList l => l.foldl peerListStep (s, [])
    | _ => (s, [])
  else if m.type = "newPeer" then
    match m.payload with
    | .withPeerId newPid =>
      if (mapLookup s.connMap newPid).isNone ∧ newPid ≠ s.myPeerId then
        let r := connectToPeer s newPid
        (r.1, r.2.2)
      else (s, [])
    | _ => (s, [])
  else if m.type = "announceRequest" then
    if s.isCreator = false then (s, [.sendE connKey (announceMsg s)])
    else (s, [])
  else if m.type = "msg" then
    match m.payload with
    | .encBlob e =>
      match s.roomKey with
      | none => (s, [.warnE "Received msg but no roomKey yet"])
      | some rk =>
        match decryptAESGCM rk e.iv e.ciphertext with
        | some (.objD o) =>
          (s, [.messageE m.fromId (m.ts.getD env.now) o])
        | _ => (s, [.warnE "decrypt message failed"])
    | _ => (s, [.warnE "decrypt message failed"])
  else (s, [])

/-- The error `sendPlain` throws when no room key is available. -/
inductive SendErr where
  | noRoomKey
deriving DecidableEq, Repr

/-- `sendPlain(obj)`: fails with `NoRoomKey` when the room key is
absent; otherwise encrypts the serialized object under the room key with
the fresh nonce, sends the envelope to every open connection, and loops
the plaintext back to the message observer. -/
def sendPlain (env : Env) (s : PeerState) (obj : String) :
    Except SendErr (List Effect) :=
  match s.roomKey with
  | none => .error .noRoomKey
  | some rk =>
    let enc := encryptAESGCM rk (.objD obj) env.iv
    let envelope := chatEnvelopeMsg s env.now enc
    let sends :=
      (s.connMap.filter (fun p => p.2.isOpen)).map
        (fun p => Effect.sendE p.1 envelope)
    .ok (sends ++ [.messageE s.myPeerId env.now obj])

/-! ### Transport events -/

/-- A raw datum arriving on a data channel: either a record that parses
to a wire message (a JS object, or JSON text that parses), or malformed
bytes `JSON.parse` throws on. -/
inductive Raw where
  | wellFormed (m : Msg)
  | malformed (text : String)
deriving DecidableEq, Repr

/-- `parseSafe(raw)`: returns the parsed record, or `none` (after a
`console.warn` diagnostic) when parsing throws. -/
def parseSafe : Raw → Option Msg
  | .wellFormed m => some m
  | .malformed _ => none

/-- The `conn.on('data', ...)` handler: parse safely, dispatch only when
parsing succeeded. -/
def dataEvent (env : Env) (s : PeerState) (connKey : PeerId) (raw : Raw) :
    PeerState × List Effect :=
  match parseSafe raw with
  | none => (s, [.warnE "parseSafe failed"])
  | some m => handleProtocolMessage env s connKey m

/-- Interpreting one registered open handler when the open event fires
(the `peerList` payload reads `connMap` at fire time). -/
def runOnOpenAct (s : PeerState) (key : PeerId) : OnOpenAct → Effect
  | .sendPublicKey => .sendE key (publicKeyMsg s)
  | .sendRoomKey e => .sendE key (roomKeyMsg s e)
  | .sendPeerList => .sendE key (peerListMsg s)
  | .sendAnnounce => .sendE key (announceMsg s)

/-- The open event firing on an outbound connection stored under `key`:
the connection becomes open and the registered handlers fire once, in
registration order.  Handlers registered after this point never fire
(the event has already happened), which the emptied queue records. -/
def connOpenEvent (s : PeerState) (key : PeerId) : PeerState × List Effect :=
  match mapLookup s.connMap key with
  | none => (s, [])
  | some c =>
    let s' : PeerState :=
      { s with connMap := mapUpdate s.connMap key (fun c' =>
          { c' with isOpen := true, onOpenActs := [] }) }
    (s', c.onOpenActs.map (runOnOpenAct s' key))

/-- An inbound connection's open event (`peer.on('connection')` then the
handle's `open`).  Only the creator attaches `handleConnection`
(src/peer.js lines 67–73); a joiner registers no handlers at all, so the
event has no observable effect for it. -/
def incomingOpenEvent (s : PeerState) (remote : PeerId) :
    PeerState × List Effect :=
  if s.isCreator then
    let c : Conn :=
      { connId := s.nextConnId, peerId := remote, isOpen := true,
        theirPub := none, theirName := none, onOpenActs := [] }
    let s' : PeerState :=
      { s with connMap := mapSet s.connMap remote c,
               nextConnId := s.nextConnId + 1 }
    (s', [.sendE remote (publicKeyMsg s)] ++ notifyParticipants s')
  else (s, [])

/-- A connection's close event: remove from the registry, notify. -/
def connCloseEvent (s : PeerState) (key : PeerId) : PeerState × List Effect :=
  let s' : PeerState := { s with connMap := mapDelete s.connMap key }
  (s', notifyParticipants s')

/-- `peer.on('open')`: the creator mints the room key, a joiner opens
the outbound connection to the creator (`connectToPeer(roomId)`). -/
def peerOpenEvent (env : Env) (s : PeerState) : PeerState × List Effect :=
  if s.isCreator then ({ s with roomKey := some env.freshKey }, [])
  else
    let r := connectToPeer s s.roomId
    (r.1, r.2.2)

/-- `announceToCreator()`: send the announce at once on an open
connection to the creator, otherwise register it to be sent when the
(possibly freshly created) connection opens. -/
def announceToCreator (s : PeerState) : PeerState × List Effect :=
  match mapLookup s.connMap s.roomId with
  | some c =>
    if c.isOpen then (s, [.sendE s.roomId (announceMsg s)])
    else
      ({ s with connMap := mapUpdate s.connMap s.roomId (fun c' =>
          { c' with onOpenActs := c'.onOpenActs ++ [.sendAnnounce] }) }, [])
  | none =>
    let r := connectToPeer s s.roomId
    ({ r.1 with connMap := mapUpdate r.1.connMap s.roomId (fun c' =>
        { c' with onOpenActs := c'.onOpenActs ++ [.sendAnnounce] }) }, r.2.2)

/-- Every event the protocol actor processes. -/
inductive Event where
  | peerOpen
  | incomingOpen (remote : PeerId)
  | connOpen (key : PeerId)
  | connClose (key : PeerId)
  | dataE (key : PeerId) (raw : Raw)
  | announceCall
deriving DecidableEq, Repr

/-- One step of the protocol actor. -/
def step (env : Env) (s : PeerState) : Event → PeerState × List Effect
  | .peerOpen => peerOpenEvent env s
  | .incomingOpen remote => incomingOpenEvent s remote
  | .connOpen key => connOpenEvent s key
  | .connClose key => connCloseEvent s key
  | .dataE key raw => dataEvent env s key raw
  | .announceCall => announceToCreator s

/-- Run a sequence of events, discarding the effect traces. -/
def runEvents (env : Env) (s : PeerState) (es : List Event) : PeerState :=
  es.foldl (fun st e => (step env st e).1) s

/-! ### Local encrypted history store (src/storage.js) -/

/-- The `localStorage` cell for one room: absent, or the serialized
`{iv, ciphertext}` object (`JSON` round-trips it losslessly). -/
abbrev Store := Option EncBlob

/-- The error `ChatStorage.load` throws when the stored blob cannot be
decrypted under the supplied key. -/
inductive StorageErr where
  | decryptionFailed
deriving DecidableEq, Repr

/-- `ChatStorage.save(roomId, messages, userKey)` with the fresh nonce
explicit: stores the log encrypted under the user key. -/
def storageSave (messages : List String) (userKey : SymKey) (iv : Nat) :
    Store :=
  some (encryptAESGCM userKey (.logD messages) iv)

/-- `ChatStorage.load(roomId, userKey)`: the empty log when nothing is
stored; otherwise the decrypted, parsed value, or a `DecryptionFailed`
error thrown to the caller when authentication fails. -/
def storageLoad (st : Store) (userKey : SymKey) :
    Except StorageErr PlainData :=
  match st with
  | none => .ok (.logD [])
  | some blob =>
    match decryptAESGCM userKey blob.iv blob.ciphertext with
    | some pd => .ok pd
    | none => .error .decryptionFailed

/-! ### Sample states used to instantiate the theorems -/

/-- A fixed runtime environment. -/
def sampleEnv : Env := { iv := 11, now := 99, freshKey := 5 }

/-- An open connection to the joiner `"room1:x"` as the creator's
registry holds it after the joiner's `publicKey` record arrived. -/
def sampleConnJ : Conn :=
  { connId := 0, peerId := "room1:x", isOpen := true, theirPub := some 7,
    theirName := some "x", onOpenActs := [] }

/-- A creator (`my.peerId = roomId = "room1"`) holding the room key,
with one open connection to a joiner. -/
def sampleCreator : PeerState :=
  { connMap := [("room1:x", sampleConnJ)], nextConnId := 1,
    myPeerId := "room1", myPriv := 3, myPub := 4, myUsername := "c",
    roomId := "room1", isCreator := true, roomKey := some 5 }

/-- A joiner that has not yet received the room key, with an open
connection to the creator whose public key it has learned. -/
def sampleJoiner : PeerState :=
  { connMap := [("room1",
      { connId := 0, peerId := "room1", isOpen := true, theirPub := some 4,
        theirName := some "c", onOpenActs := [] })],
    nextConnId := 1, myPeerId := "room1:x", myPriv := 6, myPub := 7,
    myUsername := "x", roomId := "room1", isCreator := false,
    roomKey := none }

/-- A creator immediately after construction, before its transport
registration succeeded. -/
def initCreator : PeerState :=
  { connMap := [], nextConnId := 0, myPeerId := "room1", myPriv := 3,
    myPub := 4, myUsername := "c", roomId := "room1", isCreator := true,
    roomKey := none }

/-! ### Lemmas about the registry operations -/

theorem mapLookup_append (m l : List (PeerId × Conn)) (q : PeerId) :
    mapLookup (m ++ l) q = ((mapLookup m q).orElse (fun _ => mapLookup l q)) := by
  induction m with
  | nil => simp [mapLookup]
  | cons p rest ih => by_cases h : p.1 = q <;> simp [mapLookup, h, ih]

theorem mapLookup_mapUpdate (m : List (PeerId × Conn)) (k q : PeerId)
    (f : Conn → Conn) :
    mapLookup (mapUpdate m k f) q =
      if q = k then (mapLookup m q).map f else mapLookup m q := by
  induction m with
  | nil => simp [mapUpdate, mapLookup]
  | cons p rest ih =>
    simp only [mapUpdate, List.map_cons] at ih ⊢
    by_cases hpk : p.1 = k
    · by_cases hpq : p.1 = q
      · have hqk : q = k := by rw [← hpq, hpk]
        simp [mapLookup, hpq, hqk]
      · have hkq : ¬ k = q := hpk ▸ hpq
        have hqk : ¬ q = k := fun h => hkq h.symm
        simp [mapLookup, hpk, hpq, hkq, hqk, ih]
    · by_cases hpq : p.1 = q
      · have hqk : ¬ q = k := by rw [← hpq]; exact hpk
        simp [mapLookup, hpk, hpq, hqk]
      · simp [mapLookup, hpk, hpq, ih]

theorem mapLookup_eq_none_iff (m : List (PeerId × Conn)) (q : PeerId) :
    mapLookup m q = none ↔ ∀ p ∈ m, p.1 ≠ q := by
  induction m with
  | nil => simp [mapLookup]
  | cons p rest ih => by_cases h : p.1 = q <;> simp [mapLookup, h, ih]

theorem mapUpdate_of_forall_ne (m : List (PeerId × Conn)) (k : PeerId)
    (f : Conn → Conn) (h : ∀ p ∈ m, p.1 ≠ k) : mapUpdate m k f = m := by
  induction m with
  | nil => rfl
  | cons p rest ih =>
    have hp : p.1 ≠ k := h p (List.mem_cons_self p rest)
    have hr := ih (fun q hq => h q (List.mem_cons_of_mem _ hq))
    simp only [mapUpdate, List.map_cons, if_neg hp]
    simpa [mapUpdate] using hr

theorem mapKeys_mapUpdate (m : List (PeerId × Conn)) (k : PeerId)
    (f : Conn → Conn) : mapKeys (mapUpdate m k f) = mapKeys m := by
  induction m with
  | nil => rfl
  | cons p rest ih =>
    by_cases h : p.1 = k <;> simp [mapUpdate, mapKeys, h] at ih ⊢ <;> exact ih

theorem mapKeys_append (m l : List (PeerId × Conn)) :
    mapKeys (m ++ l) = mapKeys m ++ mapKeys l := by
  simp [mapKeys]

theorem mapKeys_singleton (k : PeerId) (c : Conn) : mapKeys [(k, c)] = [k] :=
  rfl

theorem mem_mapKeys_mapSet (m : List (PeerId × Conn)) (k : PeerId) (v : Conn)
    (q : PeerId) (h : q ∈ mapKeys (mapSet m k v)) : q = k ∨ q ∈ mapKeys m := by
  induction m with
  | nil =>
    simp only [mapSet, mapKeys, List.map_cons, List.map_nil,
      List.mem_singleton] at h
    exact Or.inl h
  | cons p rest ih =>
    by_cases hp : p.1 = k
    · simp only [mapSet, if_pos hp, mapKeys, List.map_cons,
        List.mem_cons] at h
      rcases h with h | h
      · exact Or.inl h
      · exact Or.inr (by
          simp only [mapKeys, List.map_cons, List.mem_cons]
          exact Or.inr h)
    · simp only [mapSet, if_neg hp, mapKeys, List.map_cons,
        List.mem_cons] at h
      rcases h with h | h
      · exact Or.inr (by
          simp only [mapKeys, List.map_cons, List.mem_cons]
          exact Or.inl h)
      · rcases ih h with h' | h'
        · exact Or.inl h'
        · exact Or.inr (by
            simp only [mapKeys, List.map_cons, List.mem_cons]
            exact Or.inr h')

theorem mem_mapKeys_mapDelete (m : List (PeerId × Conn)) (k : PeerId)
    (q : PeerId) (h : q ∈ mapKeys (mapDelete m k)) : q ∈ mapKeys m := by
  induction m with
  | nil => simp [mapDelete, mapKeys] at h
  | cons p rest ih =>
    simp only [mapKeys, List.map_cons, List.mem_cons]
    by_cases hp : p.1 = k
    · simp only [mapDelete, if_pos hp] at h
      exact Or.inr h
    · simp only [mapDelete, if_neg hp, mapKeys, List.map_cons,
        List.mem_cons] at h
      rcases h with h | h
      · exact Or.inl h
      · exact Or.inr (ih h)

theorem mapLookup_mapSet_self (m : List (PeerId × Conn)) (k : PeerId)
    (v : Conn) : mapLookup (mapSet m k v) k = some v := by
  induction m with
  | nil => simp [mapSet, mapLookup]
  | cons p rest ih => by_cases h : p.1 = k <;> simp [mapSet, mapLookup, h, ih]

/-- The connection object `connectToPeer` creates for an unknown id. -/
def freshConn (s : PeerState) (theirId : PeerId) : Conn :=
  { connId := s.nextConnId, peerId := theirId, isOpen := false,
    theirPub := none, theirName := none, onOpenActs := [.sendPublicKey] }

theorem mapUpdate_append (m l : List (PeerId × Conn)) (k : PeerId)
    (f : Conn → Conn) :
    mapUpdate (m ++ l) k f = mapUpdate m k f ++ mapUpdate l k f := by
  simp [mapUpdate]

theorem mapUpdate_of_forall_ne' (m : List (PeerId × Conn)) (k : PeerId)
    (h : ∀ p ∈ m, p.1 ≠ k) (f : Conn → Conn) : mapUpdate m k f = m :=
  mapUpdate_of_forall_ne m k f h

theorem mapUpdate_singleton_self (k : PeerId) (c : Conn) (f : Conn → Conn) :
    mapUpdate [(k, c)] k f = [(k, f c)] := by
  simp [mapUpdate]

theorem filter_ne_self (m : List (PeerId × Conn)) (pid : PeerId)
    (h : ∀ p ∈ m, p.1 ≠ pid) :
    m.filter (fun p => !decide (p.1 = pid) && p.2.isOpen) =
      m.filter (fun p => p.2.isOpen) := by
  induction m with
  | nil => rfl
  | cons p rest ih =>
    have hp : p.1 ≠ pid := h p (List.mem_cons_self p rest)
    have hr := ih (fun q hq => h q (List.mem_cons_of_mem _ hq))
    simp [List.filter_cons, hp, hr]

theorem connectToPeer_of_mem (s : PeerState) (theirId : PeerId) (c : Conn)
    (h : mapLookup s.connMap theirId = some c) :
    connectToPeer s theirId = (s, c, []) := by
  simp [connectToPeer, h]

theorem connectToPeer_of_fresh (s : PeerState) (theirId : PeerId)
    (h : mapLookup s.connMap theirId = none) :
    connectToPeer s theirId =
      ({ s with connMap := s.connMap ++ [(theirId, freshConn s theirId)],
                nextConnId := s.nextConnId + 1 },
       freshConn s theirId,
       [.connectE theirId,
        .participantsE (mapKeys s.connMap ++ [theirId, s.myPeerId])]) := by
  simp [connectToPeer, h, freshConn, notifyParticipants, mapKeys_append, mapKeys]

/-! ### Claim theorems -/

/-- C9: an inbound raw datum that is not a parseable wire record is
dropped with a local diagnostic only: no protocol handler runs, no error
reaches the caller, and the peer state is unchanged. -/
theorem malformed_raw_dropped (env : Env) (s : PeerState) (key : PeerId)
    (text : String) :
    dataEvent env s key (.malformed text) = (s, [.warnE "parseSafe failed"]) :=
  rfl

/-- C10: a well-formed control message whose `type` is none of the seven
recognized variants leaves the whole protocol state unchanged and
produces no effect at all (no send, no observer callback). -/
theorem unknown_type_is_noop (env : Env) (s : PeerState) (key : PeerId)
    (m : Msg)
    (h : m.type ∉ (["publicKey", "announce", "roomKey", "peerList",
      "newPeer", "announceRequest", "msg"] : List String)) :
    handleProtocolMessage env s key m = (s, []) := by
  simp only [List.mem_cons, List.mem_singleton, not_or] at h
  obtain ⟨h1, h2, h3, h4, h5, h6, h7, -⟩ := h
  simp [handleProtocolMessage, h1, h2, h3, h4, h5, h6, h7]

/-- Witness for C10 at a concrete unrecognized message type. -/
theorem unknown_type_is_noop_witness :
    handleProtocolMessage sampleEnv sampleCreator "room1:x"
        { type := "bogus", fromId := "room1:x", ts := none,
          payload := .emptyP, username := none }
      = (sampleCreator, []) :=
  unknown_type_is_noop sampleEnv sampleCreator "room1:x" _ (by decide)

/-- C2: a `ChatEnvelope` (`msg` record) received while the local room
key is absent is dropped with only a diagnostic — the state is
unchanged and the message observer is not invoked — and, the state being
unchanged, once a room key is established a subsequent well-formed
envelope encrypted under it decrypts and reaches the observer. -/
theorem chatEnvelope_before_roomKey_dropped (env env' : Env) (s : PeerState)
    (key sender sender' : PeerId) (ts ts' : Option Nat) (e : EncBlob)
    (rk : SymKey) (obj : String) (iv : Nat)
    (h : s.roomKey = none) :
    handleProtocolMessage env s key
        { type := "msg", fromId := sender, ts := ts, payload := .encBlob e,
          username := none }
      = (s, [.warnE "Received msg but no roomKey yet"]) ∧
    handleProtocolMessage env' { s with roomKey := some rk } key
        { type := "msg", fromId := sender', ts := ts',
          payload := .encBlob (encryptAESGCM rk (.objD obj) iv),
          username := none }
      = ({ s with roomKey := some rk },
         [.messageE sender' (ts'.getD env'.now) obj]) := by
  constructor
  · simp [handleProtocolMessage, h]
  · simp [handleProtocolMessage, encryptAESGCM, decryptAESGCM]

/-- Witness for C2: the sample joiner (no room key yet) drops an
envelope, then decrypts one after key establishment. -/
theorem chatEnvelope_before_roomKey_dropped_witness :
    handleProtocolMessage sampleEnv sampleJoiner "room1"
        { type := "msg", fromId := "room1", ts := some 42,
          payload := .encBlob (encryptAESGCM 5 (.objD "hello") 13),
          username := none }
      = (sampleJoiner, [.warnE "Received msg but no roomKey yet"]) ∧
    handleProtocolMessage sampleEnv { sampleJoiner with roomKey := some 5 }
        "room1"
        { type := "msg", fromId := "room1", ts := some 42,
          payload := .encBlob (encryptAESGCM 5 (.objD "hello") 13),
          username := none }
      = ({ sampleJoiner with roomKey := some 5 },
         [.messageE "room1" 42 "hello"]) :=
  chatEnvelope_before_roomKey_dropped sampleEnv sampleEnv sampleJoiner
    "room1" "room1" "room1" (some 42) (some 42)
    (encryptAESGCM 5 (.objD "hello") 13) 5 "hello" 13 rfl

/-- C5: `sendPlain` fails with `NoRoomKey` exactly when the room key is
absent; with the room key present it encrypts the payload under it with
the fresh nonce, pushes the `ChatEnvelope` to every open connection, and
additionally delivers the plaintext to the local observer. -/
theorem sendPlain_spec (env : Env) (s : PeerState) (obj : String) :
    (sendPlain env s obj = .error .noRoomKey ↔ s.roomKey = none) ∧
    (∀ rk, s.roomKey = some rk →
      sendPlain env s obj =
        .ok ((s.connMap.filter (fun p => p.2.isOpen)).map
              (fun p => Effect.sendE p.1
                (chatEnvelopeMsg s env.now (encryptAESGCM rk (.objD obj) env.iv)))
            ++ [.messageE s.myPeerId env.now obj])) := by
  refine ⟨⟨fun h => ?_, fun h => by simp [sendPlain, h]⟩,
          fun rk h => by simp [sendPlain, h]⟩
  cases hrk : s.roomKey with
  | none => rfl
  | some rk => simp [sendPlain, hrk] at h

/-- Witness for C5: a keyless joiner gets `NoRoomKey`; the sample
creator's send reaches its open connection and loops back. -/
theorem sendPlain_spec_witness :
    sendPlain sampleEnv sampleJoiner "hi" = .error .noRoomKey ∧
    (sampleCreator.roomKey = some 5 ∧
     sendPlain sampleEnv sampleCreator "hi" =
       .ok [.sendE "room1:x"
              (chatEnvelopeMsg sampleCreator 99 (encryptAESGCM 5 (.objD "hi") 11)),
            .messageE "room1" 99 "hi"]) :=
  ⟨(sendPlain_spec sampleEnv sampleJoiner "hi").1.mpr rfl,
   rfl,
   (sendPlain_spec sampleEnv sampleCreator "hi").2 5 rfl⟩

/-- C8: the history store loads the empty log when nothing is stored,
round-trips a saved log under the saving key, and fails with
`DecryptionFailed` — surfaced to the caller — under a key that cannot
authenticate the stored blob. -/
theorem storage_load_spec (M : List String) (k wrong : SymKey) (iv : Nat)
    (h : wrong ≠ k) :
    storageLoad none k = .ok (.logD []) ∧
    storageLoad (storageSave M k iv) k = .ok (.logD M) ∧
    storageLoad (storageSave M k iv) wrong = .error .decryptionFailed := by
  refine ⟨rfl, by simp [storageLoad, storageSave, encryptAESGCM, decryptAESGCM], ?_⟩
  simp [storageLoad, storageSave, encryptAESGCM, decryptAESGCM, h.symm]

/-- Witness for C8 at a concrete log and keys. -/
theorem storage_load_spec_witness :
    storageLoad none 1 = .ok (.logD []) ∧
    storageLoad (storageSave ["a", "b"] 1 7) 1 = .ok (.logD ["a", "b"]) ∧
    storageLoad (storageSave ["a", "b"] 1 7) 2 = .error .decryptionFailed :=
  storage_load_spec ["a", "b"] 1 2 7 (by decide)

/-- C3 counterexample: the claim that a Connection's remote public key
is immutable once set fails — on the sample joiner's connection the key
is `some 4`, and a later `publicKey` (IdentityAnnounce) record carrying
key 9 overwrites it to `some 9` (src/peer.js line 153 assigns
unconditionally). -/
theorem remote_key_overwritten_cex :
    sampleJoiner.connMap.map (fun p => p.2.theirPub) = [some 4] ∧
    ((handleProtocolMessage sampleEnv sampleJoiner "room1"
        { type := "publicKey", fromId := "room1", ts := none,
          payload := .pubB64 9, username := some "c" }).1.connMap.map
      (fun p => p.2.theirPub)) = [some 9] ∧
    (some 9 : Option PubKey) ≠ some 4 :=
  ⟨rfl, rfl, by decide⟩

/-- C3 (amended): a later IdentityAnnounce (`publicKey`) on a connection
replaces its stored remote key — the last IdentityAnnounce wins — while
a KeyAgreementAnnounce (`announce`) never changes the key already stored
on any existing connection. -/
theorem remote_key_last_identity_wins (env : Env) (s : PeerState)
    (key : PeerId) (k : PubKey) (u : Option String) (sender : PeerId)
    (c : Conn)
    (hc : mapLookup s.connMap key = some c) :
    (∃ c', mapLookup (handleProtocolMessage env s key
        { type := "publicKey", fromId := sender, ts := none,
          payload := .pubB64 k, username := u }).1.connMap key = some c' ∧
      c'.theirPub = some k) ∧
    (∀ (pId : PeerId) (pub : PubKey) (q : PeerId) (c2 : Conn),
      mapLookup s.connMap q = some c2 →
      ∃ c2', mapLookup (handleProtocolMessage env s key
          { type := "announce", fromId := pId, ts := none,
            payload := .withPubKey pub, username := none }).1.connMap q
            = some c2' ∧
        c2'.theirPub = c2.theirPub) := by
  constructor
  · refine ⟨{ c with theirPub := some k, theirName := some (u.getD sender) }, ?_, rfl⟩
    simp [handleProtocolMessage, mapLookup_mapUpdate, hc]
  · intro pId pub q c2 hq
    cases hcr : s.isCreator with
    | false => exact ⟨c2, by simp [handleProtocolMessage, hcr, hq], rfl⟩
    | true =>
      cases hlook : mapLookup s.connMap pId with
      | some cx =>
        cases hrk : s.roomKey with
        | none => exact ⟨c2, by simp [handleProtocolMessage, hcr, hlook, hrk, hq], rfl⟩
        | some rk =>
          by_cases hqp : q = pId
          · subst hqp
            have hcx : cx = c2 := by
              rw [hq] at hlook
              exact (Option.some.inj hlook).symm
            subst hcx
            refine ⟨{ cx with onOpenActs := cx.onOpenActs ++
                [.sendRoomKey (encryptAESGCM (deriveSharedAESKey s.myPriv pub)
                  (exportAESKeyToBase64 rk) env.iv), .sendPeerList] }, ?_, rfl⟩
            simp [handleProtocolMessage, hcr, hlook, hrk,
              mapLookup_mapUpdate, hq]
          · refine ⟨c2, ?_, rfl⟩
            simp [handleProtocolMessage, hcr, hlook, hrk,
              mapLookup_mapUpdate, hqp, hq]
      | none =>
        have hqp : ¬ q = pId := by
          intro h
          rw [h, hlook] at hq
          cases hq
        cases hrk : s.roomKey with
        | none =>
          refine ⟨c2, ?_, rfl⟩
          simp [handleProtocolMessage, hcr, hlook, hrk, connectToPeer,
            mapLookup_mapUpdate, hqp, mapLookup_append, hq]
        | some rk =>
          refine ⟨c2, ?_, rfl⟩
          simp [handleProtocolMessage, hcr, hlook, hrk, connectToPeer,
            mapLookup_mapUpdate, hqp, mapLookup_append, hq]

/-- Witness for the amended C3 on the sample joiner's connection. -/
theorem remote_key_last_identity_wins_witness :
    (∃ c', mapLookup (handleProtocolMessage sampleEnv sampleJoiner "room1"
        { type := "publicKey", fromId := "room1", ts := none,
          payload := .pubB64 9, username := some "c" }).1.connMap "room1"
          = some c' ∧
      c'.theirPub = some 9) ∧
    (∀ (pId : PeerId) (pub : PubKey) (q : PeerId) (c2 : Conn),
      mapLookup sampleJoiner.connMap q = some c2 →
      ∃ c2', mapLookup (handleProtocolMessage sampleEnv sampleJoiner "room1"
          { type := "announce", fromId := pId, ts := none,
            payload := .withPubKey pub, username := none }).1.connMap q
            = some c2' ∧
        c2'.theirPub = c2.theirPub) :=
  remote_key_last_identity_wins sampleEnv sampleJoiner "room1" 9 (some "c")
    "room1"
    { connId := 0, peerId := "room1", isOpen := true, theirPub := some 4,
      theirName := some "c", onOpenActs := [] }
    rfl

/-- C4 counterexample: for a joiner, an inbound channel-open event is
ignored entirely — nothing is registered for the remote identity and the
state does not change (src/peer.js line 70 calls `handleConnection` only
when `isCreator`). -/
theorem inbound_open_ignored_by_joiner_cex :
    incomingOpenEvent sampleJoiner "room1:y" = (sampleJoiner, []) ∧
    mapLookup (incomingOpenEvent sampleJoiner "room1:y").1.connMap "room1:y"
      = none :=
  ⟨rfl, rfl⟩

/-- C4 (amended): only when the local peer is the creator does an
inbound channel-open event create a Connection registered in the
registry under the remote identity. -/
theorem inbound_open_registers_for_creator (s : PeerState) (remote : PeerId)
    (h : s.isCreator = true) :
    mapLookup (incomingOpenEvent s remote).1.connMap remote =
      some { connId := s.nextConnId, peerId := remote, isOpen := true,
             theirPub := none, theirName := none, onOpenActs := [] } := by
  simp [incomingOpenEvent, h, mapLookup_mapSet_self]

/-- Witness for the amended C4 on the sample creator. -/
theorem inbound_open_registers_for_creator_witness :
    mapLookup (incomingOpenEvent sampleCreator "room1:y").1.connMap "room1:y"
      = some { connId := 1, peerId := "room1:y", isOpen := true,
               theirPub := none, theirName := none, onOpenActs := [] } :=
  inbound_open_registers_for_creator sampleCreator "room1:y" rfl

/-- C6: connection establishment and announce handling are idempotent
for an already-connected identity: `connectToPeer` is a no-op returning
the stored Connection; a duplicate `announce` creates no new registry
entry and leaves the room key unchanged; a duplicate `newPeer` leaves
the whole state unchanged with no effects. -/
theorem idempotent_connect_and_duplicates (env : Env) (s : PeerState)
    (key theirId : PeerId) (c : Conn) (pub : PubKey)
    (h : mapLookup s.connMap theirId = some c) :
    connectToPeer s theirId = (s, c, []) ∧
    (mapKeys (handleProtocolMessage env s key
        { type := "announce", fromId := theirId, ts := none,
          payload := .withPubKey pub, username := none }).1.connMap
        = mapKeys s.connMap ∧
     (handleProtocolMessage env s key
        { type := "announce", fromId := theirId, ts := none,
          payload := .withPubKey pub, username := none }).1.roomKey
        = s.roomKey) ∧
    handleProtocolMessage env s key
        { type := "newPeer", fromId := key, ts := none,
          payload := .withPeerId theirId, username := none }
      = (s, []) := by
  refine ⟨connectToPeer_of_mem s theirId c h, ⟨?_, ?_⟩, ?_⟩
  · cases hcr : s.isCreator with
    | false => simp [handleProtocolMessage, hcr]
    | true =>
      cases hrk : s.roomKey <;>
        simp [handleProtocolMessage, hcr, h, hrk, mapKeys_mapUpdate]
  · cases hcr : s.isCreator with
    | false => simp [handleProtocolMessage, hcr]
    | true =>
      cases hrk : s.roomKey <;>
        simp [handleProtocolMessage, hcr, h, hrk]
  · simp [handleProtocolMessage, h]

/-- Witness for C6 on the sample creator's existing connection. -/
theorem idempotent_connect_and_duplicates_witness :
    connectToPeer sampleCreator "room1:x" = (sampleCreator, sampleConnJ, []) ∧
    (mapKeys (handleProtocolMessage sampleEnv sampleCreator "room1:x"
        { type := "announce", fromId := "room1:x", ts := none,
          payload := .withPubKey 7, username := none }).1.connMap
        = mapKeys sampleCreator.connMap ∧
     (handleProtocolMessage sampleEnv sampleCreator "room1:x"
        { type := "announce", fromId := "room1:x", ts := none,
          payload := .withPubKey 7, username := none }).1.roomKey
        = sampleCreator.roomKey) ∧
    handleProtocolMessage sampleEnv sampleCreator "room1:x"
        { type := "newPeer", fromId := "room1:x", ts := none,
          payload := .withPeerId "room1:x", username := none }
      = (sampleCreator, []) :=
  idempotent_connect_and_duplicates sampleEnv sampleCreator "room1:x"
    "room1:x" sampleConnJ 7 rfl

/-- Normal form of the creator's handling of a `KeyAgreementAnnounce`
from a peer it has no connection to yet: a fresh connection to the
announcer is registered carrying the announced key and an open-handler
queue of `publicKey`, the pairwise-encrypted `roomKey`, and `peerList`;
the effects are the connect initiation, the participant notification,
and a `newPeer` broadcast to every open connection. -/
theorem handleAnnounce_fresh (env : Env) (s : PeerState) (key pId : PeerId)
    (k : PubKey) (rk : SymKey)
    (hcr : s.isCreator = true) (hrk : s.roomKey = some rk)
    (hfresh : mapLookup s.connMap pId = none) :
    handleProtocolMessage env s key
        { type := "announce", fromId := pId, ts := none,
          payload := .withPubKey k, username := none } =
      ({ s with
          connMap := s.connMap ++
            [(pId, { connId := s.nextConnId, peerId := pId, isOpen := false,
                     theirPub := some k, theirName := none,
                     onOpenActs := [.sendPublicKey,
                       .sendRoomKey (encryptAESGCM (deriveSharedAESKey s.myPriv k)
                         (exportAESKeyToBase64 rk) env.iv), .sendPeerList] })],
          nextConnId := s.nextConnId + 1 },
       [.connectE pId, .participantsE (mapKeys s.connMap ++ [pId, s.myPeerId])]
         ++ (s.connMap.filter (fun p => p.2.isOpen)).map
              (fun p => Effect.sendE p.1
                { type := "newPeer", fromId := s.myPeerId, ts := none,
                  payload := .withPeerId pId, username := none })) := by
  have hall : ∀ p ∈ s.connMap, p.1 ≠ pId :=
    (mapLookup_eq_none_iff s.connMap pId).mp hfresh
  simp [handleProtocolMessage, hcr, hrk, hfresh,
    connectToPeer_of_fresh s pId hfresh, freshConn,
    mapUpdate_append, mapUpdate_of_forall_ne' s.connMap pId hall,
    mapUpdate_singleton_self, List.filter_append,
    filter_ne_self s.connMap pId hall, newPeerMsg]

/-- C1: the code contradicts the claimed delivery on the protocol's
main join path.  When the announcing peer P is already connected — the
normal flow: the creator registered P's inbound connection at its open,
so that connection is already open when the `announce` arrives on it —
the handler registers the `roomKey`-then-`peerList` sends as a fresh
open handler on that already-open connection (src/peer.js line 179) and
emits no send to P at all.  A connection's `open` event fires only
once, so the queued `RoomKeyDelivery` and `PeerList` remain in the
never-to-fire queue and P never receives the room key, although the
pairwise key is derived and the room key encrypted exactly as
specified.  (On the fresh-connection path the delivery does fire at
open: `handleAnnounce_fresh` above.) -/
theorem roomKey_delivery_dead_for_connected_announcer :
    handleProtocolMessage sampleEnv sampleCreator "room1:x"
        { type := "announce", fromId := "room1:x", ts := none,
          payload := .withPubKey 7, username := none } =
      ({ sampleCreator with
          connMap := [("room1:x",
            { sampleConnJ with
                onOpenActs :=
                  [.sendRoomKey (encryptAESGCM (deriveSharedAESKey 3 7)
                      (exportAESKeyToBase64 5) 11),
                   .sendPeerList] })] },
       []) := by
  rfl

/-! ### The no-self-entry registry invariant (C7) -/

/-- The registry holds no entry keyed by the local identity. -/
def noSelfEntry (s : PeerState) : Prop := s.myPeerId ∉ mapKeys s.connMap

/-- Identity well-formedness established by `init`: a joiner's identity
is `roomId` plus a random suffix, hence differs from the room id. -/
def wfIdent (s : PeerState) : Prop :=
  s.isCreator = false → s.myPeerId ≠ s.roomId

/-- The events the surrounding system can actually produce: the
transport never delivers an inbound connection registered under the
local identity, a received announce (whose sender field is wire data)
does not name the local identity, and `announceToCreator` is invoked
only on joiners (src/ui.js calls it only for role 'join'). -/
def benignEvent (s : PeerState) : Event → Prop
  | .incomingOpen remote => remote ≠ s.myPeerId
  | .dataE _ (.wellFormed m) => m.type = "announce" → m.fromId ≠ s.myPeerId
  | .announceCall => s.isCreator = false
  | _ => True

theorem benignEvent_congr (s s' : PeerState) (e : Event)
    (h1 : s'.myPeerId = s.myPeerId) (h2 : s'.isCreator = s.isCreator)
    (hb : benignEvent s e) : benignEvent s' e := by
  cases e with
  | incomingOpen r => simpa [benignEvent, h1] using hb
  | announceCall => simpa [benignEvent, h2] using hb
  | dataE k raw =>
    cases raw with
    | wellFormed m => simpa [benignEvent, h1] using hb
    | malformed t => trivial
  | peerOpen => trivial
  | connOpen k => trivial
  | connClose k => trivial

theorem connectToPeer_ident (s : PeerState) (tid : PeerId) :
    (connectToPeer s tid).1.myPeerId = s.myPeerId ∧
    (connectToPeer s tid).1.roomId = s.roomId ∧
    (connectToPeer s tid).1.isCreator = s.isCreator := by
  cases h : mapLookup s.connMap tid <;> simp [connectToPeer, h]

theorem connectToPeer_noSelf (s : PeerState) (tid : PeerId)
    (hn : noSelfEntry s) (hne : tid ≠ s.myPeerId) :
    noSelfEntry (connectToPeer s tid).1 := by
  cases h : mapLookup s.connMap tid with
  | some c => simpa [connectToPeer, h] using hn
  | none =>
    rw [congrArg Prod.fst (connectToPeer_of_fresh s tid h)]
    simp only [noSelfEntry, mapKeys_append, mapKeys_singleton,
      List.mem_append, List.mem_singleton] at hn ⊢
    intro hmem
    rcases hmem with h1 | h1
    · exact hn h1
    · exact hne h1.symm

theorem peerListFold_inv (l : List PeerId) (acc : PeerState × List Effect) :
    (l.foldl peerListStep acc).1.myPeerId = acc.1.myPeerId ∧
    (l.foldl peerListStep acc).1.roomId = acc.1.roomId ∧
    (l.foldl peerListStep acc).1.isCreator = acc.1.isCreator ∧
    (noSelfEntry acc.1 → noSelfEntry (l.foldl peerListStep acc).1) := by
  induction l generalizing acc with
  | nil => exact ⟨rfl, rfl, rfl, id⟩
  | cons pid rest ih =>
    have hstep : (peerListStep acc pid).1.myPeerId = acc.1.myPeerId ∧
        (peerListStep acc pid).1.roomId = acc.1.roomId ∧
        (peerListStep acc pid).1.isCreator = acc.1.isCreator ∧
        (noSelfEntry acc.1 → noSelfEntry (peerListStep acc pid).1) := by
      by_cases hc : pid = acc.1.myPeerId ∨ (mapLookup acc.1.connMap pid).isSome
      · simp [peerListStep, hc]
      · push_neg at hc
        simp only [peerListStep, if_neg (not_or.mpr ⟨hc.1, hc.2⟩)]
        refine ⟨(connectToPeer_ident acc.1 pid).1,
          (connectToPeer_ident acc.1 pid).2.1,
          (connectToPeer_ident acc.1 pid).2.2,
          fun hn => connectToPeer_noSelf acc.1 pid hn hc.1⟩
    have hrest := ih (peerListStep acc pid)
    rw [List.foldl_cons]
    exact ⟨hrest.1.trans hstep.1, hrest.2.1.trans hstep.2.1,
      hrest.2.2.1.trans hstep.2.2.1,
      fun hn => hrest.2.2.2 (hstep.2.2.2 hn)⟩

theorem handleProtocolMessage_inv (env : Env) (s : PeerState) (key : PeerId)
    (m : Msg) (hn : noSelfEntry s)
    (hann : m.type = "announce" → m.fromId ≠ s.myPeerId) :
    (handleProtocolMessage env s key m).1.myPeerId = s.myPeerId ∧
    (handleProtocolMessage env s key m).1.roomId = s.roomId ∧
    (handleProtocolMessage env s key m).1.isCreator = s.isCreator ∧
    noSelfEntry (handleProtocolMessage env s key m).1 := by
  have hnu : s.myPeerId ∉ mapKeys s.connMap := hn
  by_cases h1 : m.type = "publicKey"
  · cases hp : m.payload <;>
      refine ⟨?_, ?_, ?_, ?_⟩ <;>
      simp [handleProtocolMessage, h1, hp, noSelfEntry, mapKeys_mapUpdate] <;>
      exact hnu
  by_cases h2 : m.type = "announce"
  · have hfr : m.fromId ≠ s.myPeerId := hann h2
    cases hp : m.payload with
    | withPubKey pub =>
      cases hcr : s.isCreator with
      | false =>
        refine ⟨?_, ?_, ?_, ?_⟩ <;>
          simp [handleProtocolMessage, h1, h2, hp, hcr, noSelfEntry] <;>
          exact hnu
      | true =>
        cases hlook : mapLookup s.connMap m.fromId with
        | some c =>
          cases hrk : s.roomKey <;>
            refine ⟨?_, ?_, ?_, ?_⟩ <;>
            simp [handleProtocolMessage, h1, h2, hp, hcr, hlook, hrk,
              noSelfEntry, mapKeys_mapUpdate] <;>
            exact hnu
        | none =>
          have hall : ∀ p ∈ s.connMap, p.1 ≠ m.fromId :=
            (mapLookup_eq_none_iff s.connMap m.fromId).mp hlook
          cases hrk : s.roomKey <;>
            refine ⟨?_, ?_, ?_, ?_⟩ <;>
            simp [handleProtocolMessage, h1, h2, hp, hcr, hlook, hrk,
              connectToPeer_of_fresh s m.fromId hlook, freshConn,
              mapUpdate_append, mapUpdate_of_forall_ne' s.connMap m.fromId hall,
              mapUpdate_singleton_self, noSelfEntry, mapKeys_mapUpdate,
              mapKeys_append, mapKeys_singleton] <;>
            exact ⟨hnu, fun h => hfr h.symm⟩
    | pubB64 k =>
      refine ⟨?_, ?_, ?_, ?_⟩ <;>
        simp [handleProtocolMessage, h1, h2, hp, noSelfEntry] <;> exact hnu
    | encBlob e =>
      refine ⟨?_, ?_, ?_, ?_⟩ <;>
        simp [handleProtocolMessage, h1, h2, hp, noSelfEntry] <;> exact hnu
    | idList l =>
      refine ⟨?_, ?_, ?_, ?_⟩ <;>
        simp [handleProtocolMessage, h1, h2, hp, noSelfEntry] <;> exact hnu
    | withPeerId pid =>
      refine ⟨?_, ?_, ?_, ?_⟩ <;>
        simp [handleProtocolMessage, h1, h2, hp, noSelfEntry] <;> exact hnu
    | emptyP =>
      refine ⟨?_, ?_, ?_, ?_⟩ <;>
        simp [handleProtocolMessage, h1, h2, hp, noSelfEntry] <;> exact hnu
  by_cases h3 : m.type = "roomKey"
  · cases hp : m.payload with
    | encBlob e =>
      cases hb : (mapLookup s.connMap key).bind (fun c => c.theirPub) with
      | none =>
        refine ⟨?_, ?_, ?_, ?_⟩ <;>
          simp [handleProtocolMessage, h1, h2, h3, hp, hb, noSelfEntry] <;>
          exact hnu
      | some tp =>
        cases hd : decryptAESGCM (deriveSharedAESKey s.myPriv tp) e.iv
            e.ciphertext with
        | none =>
          refine ⟨?_, ?_, ?_, ?_⟩ <;>
            simp [handleProtocolMessage, h1, h2, h3, hp, hb, hd,
              noSelfEntry] <;>
            exact hnu
        | some pd =>
          cases pd <;>
            refine ⟨?_, ?_, ?_, ?_⟩ <;>
            simp [handleProtocolMessage, h1, h2, h3, hp, hb, hd,
              importAESKeyFromBase64, noSelfEntry] <;>
            exact hnu
    | pubB64 k =>
      refine ⟨?_, ?_, ?_, ?_⟩ <;>
        simp [handleProtocolMessage, h1, h2, h3, hp, noSelfEntry] <;> exact hnu
    | withPubKey k =>
      refine ⟨?_, ?_, ?_, ?_⟩ <;>
        simp [handleProtocolMessage, h1, h2, h3, hp, noSelfEntry] <;> exact hnu
    | idList l =>
      refine ⟨?_, ?_, ?_, ?_⟩ <;>
        simp [handleProtocolMessage, h1, h2, h3, hp, noSelfEntry] <;> exact hnu
    | withPeerId pid =>
      refine ⟨?_, ?_, ?_, ?_⟩ <;>
        simp [handleProtocolMessage, h1, h2, h3, hp, noSelfEntry] <;> exact hnu
    | emptyP =>
      refine ⟨?_, ?_, ?_, ?_⟩ <;>
        simp [handleProtocolMessage, h1, h2, h3, hp, noSelfEntry] <;> exact hnu
  by_cases h4 : m.type = "peerList"
  · cases hp : m.payload with
    | idList l =>
      have hfold := peerListFold_inv l (s, [])
      refine ⟨?_, ?_, ?_, ?_⟩ <;>
        simp only [handleProtocolMessage, h1, h2, h3, h4, if_neg, if_pos,
          hp, if_false, if_true] <;>
        simp [h1, h2, h3, h4, hp]
      · exact hfold.1
      · exact hfold.2.1
      · exact hfold.2.2.1
      · exact hfold.2.2.2 hn
    | pubB64 k =>
      refine ⟨?_, ?_, ?_, ?_⟩ <;>
        simp [handleProtocolMessage, h1, h2, h3, h4, hp, noSelfEntry] <;>
        exact hnu
    | withPubKey k =>
      refine ⟨?_, ?_, ?_, ?_⟩ <;>
        simp [handleProtocolMessage, h1, h2, h3, h4, hp, noSelfEntry] <;>
        exact hnu
    | encBlob e =>
      refine ⟨?_, ?_, ?_, ?_⟩ <;>
        simp [handleProtocolMessage, h1, h2, h3, h4, hp, noSelfEntry] <;>
        exact hnu
    | withPeerId pid =>
      refine ⟨?_, ?_, ?_, ?_⟩ <;>
        simp [handleProtocolMessage, h1, h2, h3, h4, hp, noSelfEntry] <;>
        exact hnu
    | emptyP =>
      refine ⟨?_, ?_, ?_, ?_⟩ <;>
        simp [handleProtocolMessage, h1, h2, h3, h4, hp, noSelfEntry] <;>
        exact hnu
  by_cases h5 : m.type = "newPeer"
  · cases hp : m.payload with
    | withPeerId pid =>
      by_cases hc : (mapLookup s.connMap pid).isNone ∧ pid ≠ s.myPeerId
      · have hident := connectToPeer_ident s pid
        have hns := connectToPeer_noSelf s pid hn hc.2
        refine ⟨?_, ?_, ?_, ?_⟩ <;>
          simp [handleProtocolMessage, h1, h2, h3, h4, h5, hp, hc]
        · exact hident.1
        · exact hident.2.1
        · exact hident.2.2
        · exact hns
      · have hc' : ¬(mapLookup s.connMap pid = none ∧ ¬pid = s.myPeerId) := by
          simpa [Option.isNone_iff_eq_none] using hc
        refine ⟨?_, ?_, ?_, ?_⟩ <;>
          simp [handleProtocolMessage, h1, h2, h3, h4, h5, hp, hc',
            noSelfEntry] <;>
          exact hnu
    | pubB64 k =>
      refine ⟨?_, ?_, ?_, ?_⟩ <;>
        simp [handleProtocolMessage, h1, h2, h3, h4, h5, hp, noSelfEntry] <;>
        exact hnu
    | withPubKey k =>
      refine ⟨?_, ?_, ?_, ?_⟩ <;>
        simp [handleProtocolMessage, h1, h2, h3, h4, h5, hp, noSelfEntry] <;>
        exact hnu
    | encBlob e =>
      refine ⟨?_, ?_, ?_, ?_⟩ <;>
        simp [handleProtocolMessage, h1, h2, h3, h4, h5, hp, noSelfEntry] <;>
        exact hnu
    | idList l =>
      refine ⟨?_, ?_, ?_, ?_⟩ <;>
        simp [handleProtocolMessage, h1, h2, h3, h4, h5, hp, noSelfEntry] <;>
        exact hnu
    | emptyP =>
      refine ⟨?_, ?_, ?_, ?_⟩ <;>
        simp [handleProtocolMessage, h1, h2, h3, h4, h5, hp, noSelfEntry] <;>
        exact hnu
  by_cases h6 : m.type = "announceRequest"
  · cases hcr : s.isCreator <;>
      refine ⟨?_, ?_, ?_, ?_⟩ <;>
      simp [handleProtocolMessage, h1, h2, h3, h4, h5, h6, hcr,
        noSelfEntry] <;>
      exact hnu
  by_cases h7 : m.type = "msg"
  · cases hp : m.payload with
    | encBlob e =>
      cases hrk : s.roomKey with
      | none =>
        refine ⟨?_, ?_, ?_, ?_⟩ <;>
          simp [handleProtocolMessage, h1, h2, h3, h4, h5, h6, h7, hp, hrk,
            noSelfEntry] <;>
          exact hnu
      | some rk =>
        cases hd : decryptAESGCM rk e.iv e.ciphertext with
        | none =>
          refine ⟨?_, ?_, ?_, ?_⟩ <;>
            simp [handleProtocolMessage, h1, h2, h3, h4, h5, h6, h7, hp, hrk,
              hd, noSelfEntry] <;>
            exact hnu
        | some pd =>
          cases pd <;>
            refine ⟨?_, ?_, ?_, ?_⟩ <;>
            simp [handleProtocolMessage, h1, h2, h3, h4, h5, h6, h7, hp, hrk,
              hd, noSelfEntry] <;>
            exact hnu
    | pubB64 k =>
      refine ⟨?_, ?_, ?_, ?_⟩ <;>
        simp [handleProtocolMessage, h1, h2, h3, h4, h5, h6, h7, hp,
          noSelfEntry] <;>
        exact hnu
    | withPubKey k =>
      refine ⟨?_, ?_, ?_, ?_⟩ <;>
        simp [handleProtocolMessage, h1, h2, h3, h4, h5, h6, h7, hp,
          noSelfEntry] <;>
        exact hnu
    | idList l =>
      refine ⟨?_, ?_, ?_, ?_⟩ <;>
        simp [handleProtocolMessage, h1, h2, h3, h4, h5, h6, h7, hp,
          noSelfEntry] <;>
        exact hnu
    | withPeerId pid =>
      refine ⟨?_, ?_, ?_, ?_⟩ <;>
        simp [handleProtocolMessage, h1, h2, h3, h4, h5, h6, h7, hp,
          noSelfEntry] <;>
        exact hnu
    | emptyP =>
      refine ⟨?_, ?_, ?_, ?_⟩ <;>
        simp [handleProtocolMessage, h1, h2, h3, h4, h5, h6, h7, hp,
          noSelfEntry] <;>
        exact hnu
  · refine ⟨?_, ?_, ?_, ?_⟩ <;>
      simp [handleProtocolMessage, h1, h2, h3, h4, h5, h6, h7,
        noSelfEntry] <;>
      exact hnu

theorem step_inv (env : Env) (s : PeerState) (e : Event)
    (hn : noSelfEntry s) (hwf : wfIdent s) (hb : benignEvent s e) :
    (step env s e).1.myPeerId = s.myPeerId ∧
    (step env s e).1.roomId = s.roomId ∧
    (step env s e).1.isCreator = s.isCreator ∧
    noSelfEntry (step env s e).1 := by
  have hnu : s.myPeerId ∉ mapKeys s.connMap := hn
  cases e with
  | peerOpen =>
    cases hcr : s.isCreator with
    | true =>
      refine ⟨?_, ?_, ?_, ?_⟩ <;>
        simp [step, peerOpenEvent, hcr, noSelfEntry] <;> exact hnu
    | false =>
      have hne : s.roomId ≠ s.myPeerId := Ne.symm (hwf hcr)
      have hident := connectToPeer_ident s s.roomId
      have hns := connectToPeer_noSelf s s.roomId hn hne
      refine ⟨?_, ?_, ?_, ?_⟩
      · simpa [step, peerOpenEvent, hcr] using hident.1
      · simpa [step, peerOpenEvent, hcr] using hident.2.1
      · simpa [step, peerOpenEvent, hcr] using hident.2.2
      · simpa [step, peerOpenEvent, hcr] using hns
  | incomingOpen remote =>
    cases hcr : s.isCreator with
    | false =>
      refine ⟨?_, ?_, ?_, ?_⟩ <;>
        simp [step, incomingOpenEvent, hcr, noSelfEntry] <;> exact hnu
    | true =>
      refine ⟨?_, ?_, ?_, ?_⟩ <;>
        simp [step, incomingOpenEvent, hcr, noSelfEntry]
      intro hmem
      rcases mem_mapKeys_mapSet _ _ _ _ hmem with h | h
      · exact hb h.symm
      · exact hnu h
  | connOpen key =>
    cases hl : mapLookup s.connMap key with
    | none =>
      refine ⟨?_, ?_, ?_, ?_⟩ <;>
        simp [step, connOpenEvent, hl, noSelfEntry] <;> exact hnu
    | some c =>
      refine ⟨?_, ?_, ?_, ?_⟩ <;>
        simp [step, connOpenEvent, hl, noSelfEntry, mapKeys_mapUpdate] <;>
        exact hnu
  | connClose key =>
    refine ⟨?_, ?_, ?_, ?_⟩ <;>
      simp [step, connCloseEvent, noSelfEntry]
    intro hmem
    exact hnu (mem_mapKeys_mapDelete _ _ _ hmem)
  | dataE key raw =>
    cases raw with
    | malformed t =>
      refine ⟨?_, ?_, ?_, ?_⟩ <;>
        simp [step, dataEvent, parseSafe, noSelfEntry] <;> exact hnu
    | wellFormed mm =>
      have h := handleProtocolMessage_inv env s key mm hn hb
      refine ⟨?_, ?_, ?_, ?_⟩
      · simpa [step, dataEvent, parseSafe] using h.1
      · simpa [step, dataEvent, parseSafe] using h.2.1
      · simpa [step, dataEvent, parseSafe] using h.2.2.1
      · simpa [step, dataEvent, parseSafe] using h.2.2.2
  | announceCall =>
    have hcr : s.isCreator = false := hb
    have hne : s.roomId ≠ s.myPeerId := Ne.symm (hwf hcr)
    cases hl : mapLookup s.connMap s.roomId with
    | some c =>
      cases ho : c.isOpen with
      | true =>
        refine ⟨?_, ?_, ?_, ?_⟩ <;>
          simp [step, announceToCreator, hl, ho, noSelfEntry] <;> exact hnu
      | false =>
        refine ⟨?_, ?_, ?_, ?_⟩ <;>
          simp [step, announceToCreator, hl, ho, noSelfEntry,
            mapKeys_mapUpdate] <;>
          exact hnu
    | none =>
      have hident := connectToPeer_ident s s.roomId
      have hns : (connectToPeer s s.roomId).1.myPeerId ∉
          mapKeys (connectToPeer s s.roomId).1.connMap :=
        connectToPeer_noSelf s s.roomId hn hne
      refine ⟨?_, ?_, ?_, ?_⟩ <;>
        simp [step, announceToCreator, hl, noSelfEntry, mapKeys_mapUpdate]
      · exact hident.1
      · exact hident.2.1
      · exact hident.2.2
      · exact hns

theorem runEvents_inv (env : Env) (s0 : PeerState) (es : List Event) :
    ∀ s : PeerState, s.myPeerId = s0.myPeerId → s.roomId = s0.roomId →
      s.isCreator = s0.isCreator → noSelfEntry s → wfIdent s →
      (∀ e ∈ es, benignEvent s0 e) → noSelfEntry (runEvents env s es) := by
  induction es with
  | nil => exact fun s _ _ _ hn _ _ => hn
  | cons e rest ih =>
    intro s h1 h2 h3 hn hwf hb
    have hbe : benignEvent s e :=
      benignEvent_congr s0 s e h1 h3 (hb e (List.mem_cons_self _ _))
    have hstep := step_inv env s e hn hwf hbe
    have hwf' : wfIdent (step env s e).1 := fun hc => by
      rw [hstep.1, hstep.2.1]
      exact hwf (hstep.2.2.1.symm.trans hc)
    exact ih (step env s e).1 (hstep.1.trans h1) (hstep.2.1.trans h2)
      (hstep.2.2.1.trans h3) hstep.2.2.2 hwf'
      (fun e' he' => hb e' (List.mem_cons_of_mem _ he'))

/-- C7 counterexample: the Connection Registry *can* come to contain an
entry keyed by the local peer's own identity.  A creator that handles a
(forged) `announce` whose `from` field names the creator itself calls
`connectToPeer(my.peerId)` — announce handling, unlike the `peerList`
and `newPeer` handlers, has no self-check — and the registry then holds
the creator's own identity. -/
theorem registry_contains_self_cex :
    initCreator.myPeerId ∈ mapKeys (runEvents sampleEnv initCreator
      [.peerOpen, .incomingOpen "room1:x",
       .dataE "room1:x" (.wellFormed
         { type := "announce", fromId := "room1", ts := none,
           payload := .withPubKey 8, username := none })]).connMap := by
  decide

/-- C7 (amended): after any sequence of benign protocol events — no
received announce names the local identity as sender, the transport
never delivers an inbound connection under the local identity, and
`announceToCreator` is invoked only on joiners — a registry with no
self entry never acquires one. -/
theorem registry_never_contains_self (env : Env) (s : PeerState)
    (es : List Event) (hn : noSelfEntry s) (hwf : wfIdent s)
    (hb : ∀ e ∈ es, benignEvent s e) :
    noSelfEntry (runEvents env s es) :=
  runEvents_inv env s es s rfl rfl rfl hn hwf hb

/-- Witness for the amended C7: the creator runs its startup, an
inbound joiner connection, and a well-formed announce from that joiner;
no self entry appears. -/
theorem registry_never_contains_self_witness :
    noSelfEntry (runEvents sampleEnv initCreator
      [.peerOpen, .incomingOpen "room1:x",
       .dataE "room1:x" (.wellFormed
         { type := "announce", fromId := "room1:x", ts := none,
           payload := .withPubKey 8, username := none })]) :=
  registry_never_contains_self sampleEnv initCreator _
    (by simp [noSelfEntry, initCreator, mapKeys])
    (fun h => absurd h (by decide))
    (by
      intro e he
      simp only [List.mem_cons, List.not_mem_nil, or_false] at he
      rcases he with rfl | rfl | rfl
      · trivial
      · show ("room1:x" : String) ≠ initCreator.myPeerId
        decide
      · intro _
        show ("room1:x" : String) ≠ initCreator.myPeerId
        decide)

end ChatApp
